import Mathlib

/-
Verification development for the silverwind reverse proxy / API gateway
(Rust). The definitions below are a shallow embedding of the request
matching, path rewriting, middleware admission, rate limiting and circuit
breaking code under src/rust-proxy/src.

Conventions of the embedding:
* HTTP header maps (http::HeaderMap) are modelled as association lists of
  string pairs; lookup is case-insensitive on the header name, matching the
  crate's normalisation.  Header values are modelled as strings (the
  to_str() failure path for non-ASCII values is not modelled; no claim
  depends on it).
* The external regex crate is modelled through the `RegexEngine` interface:
  `Regex::new` becomes a function `String → Option RegexFn` where a
  compiled regex provides `is_match` and first-occurrence `replace`.
  Definitions that use regexes are parameterised by an engine, so theorems
  quantified over engines hold for the real crate.  `miniCompile` is one
  concrete engine implementing the crate's leftmost-first greedy semantics
  on the restricted pattern language used by the concrete theorems below
  (literal characters from a safe alphabet and the one-or-more quantifier
  written c+); on every other pattern it reports a compile failure, which
  matches the crate on the patterns actually used (for example an unclosed
  character class).
* Machine integers: Rust i32 values are modelled as Int together with
  explicit two's-complement truncation (`toI32`, `wrap32`); u64/u32
  counters of the circuit breaker are modelled as Nat (their +1 overflow is
  unreachable in any realistic run and no claim concerns it); f64
  thresholds of the circuit breaker are modelled as exact rationals.
* Rust Instant/SystemTime values are modelled as Nat milliseconds supplied
  explicitly to each call.
-/

/-- ASCII lowercase of one character (header names in HTTP are ASCII). -/
def asciiLower (c : Char) : Char :=
  if 'A' ≤ c ∧ c ≤ 'Z' then Char.ofNat (c.toNat + 32) else c

/-- Lowercase a string character-wise. -/
def strLower (s : String) : String := String.mk (s.toList.map asciiLower)

/-- Does `s` start with `p`?  The model of Rust's starts_with, computed on
character lists. -/
def strStartsWith (s p : String) : Bool := List.isPrefixOf p.toList s.toList

/-- Drop the first n characters of a string. -/
def strDrop (s : String) (n : Nat) : String := String.mk (s.toList.drop n)

/-- Split a character list at every occurrence of `sep`. -/
def splitCharsOn (sep : Char) : List Char → List Char → List String
  | [], acc => [String.mk acc.reverse]
  | c :: rest, acc =>
    if c = sep then String.mk acc.reverse :: splitCharsOn sep rest []
    else splitCharsOn sep rest (c :: acc)

/-- Split a string on a one-character separator, the model of Rust's
split / the source's splitOn for the separators it uses. -/
def splitOnChar (sep : Char) (s : String) : List String :=
  splitCharsOn sep s.toList []

/-- Parse a nonempty list of decimal digits. -/
def digitsToNat : List Char → Option Nat
  | [] => none
  | cs => cs.foldl (fun acc? c =>
      match acc? with
      | none => none
      | some acc => if '0' ≤ c ∧ c ≤ '9' then some (acc * 10 + (c.toNat - 48)) else none)
      (some 0)

/-- Parse a string of decimal digits, the model of str::parse on
unsigned integers. -/
def strToNat (s : String) : Option Nat := digitsToNat s.toList

/-- Decimal digits of a number, most significant first, driven by fuel
(always called with enough fuel). -/
def natToStrGo : Nat → Nat → List Char
  | 0, _ => []
  | fuel + 1, n =>
    if n < 10 then [Char.ofNat (48 + n)]
    else natToStrGo fuel (n / 10) ++ [Char.ofNat (48 + n % 10)]

/-- Decimal representation of a number, the model of to_string. -/
def natToStr (n : Nat) : String := String.mk (natToStrGo (n + 1) n)

/-- Join strings with a separator, the model of Vec::join. -/
def joinSep (sep : String) : List String → String
  | [] => ""
  | [x] => x
  | x :: xs => x ++ sep ++ joinSep sep xs

/-- Case-insensitive lookup in a header map, the model of
`HeaderMap::get` / `HeaderMap::contains_key`. -/
def headerGet (headers : List (String × String)) (name : String) : Option String :=
  (headers.find? (fun p => strLower p.1 == strLower name)).map (fun p => p.2)

/-- A compiled regular expression as used by the source: `is_match` for
matcher rules and first-occurrence `replace` for path rewriting (the
replacement string is inserted literally; the templates used by the
concrete theorems contain no dollar references). -/
structure RegexFn where
  isMatch : String → Bool
  replaceFirst : String → String → String

/-- The model of `regex::Regex::new`: `none` is a compile failure. -/
def RegexEngine : Type := String → Option RegexFn

/-- Tokens of the mini regex implementation: a literal character or a
greedy one-or-more repetition of a character (written c+). -/
inductive RegexTok where
  | lit (c : Char)
  | rep1 (c : Char)
deriving DecidableEq

/-- Characters the mini regex accepts as literals; every metacharacter of
the real crate is outside this set, so a pattern that parses here means
the same thing to the crate. -/
def regexGoodChar (c : Char) : Bool :=
  c.isAlphanum || c = '/' || c = '-' || c = '_' || c = ':'

/-- Parser for the mini pattern language.  A + quantifier must follow a
literal; any character outside the safe alphabet makes compilation fail
(in particular an unclosed character class such as the pattern consisting
of a single opening square bracket, which the crate also rejects). -/
def regexParseGo : List Char → List RegexTok → Option (List RegexTok)
  | [], acc => some acc.reverse
  | c :: rest, acc =>
    if c = '+' then
      match acc with
      | RegexTok.lit c0 :: acc2 => regexParseGo rest (RegexTok.rep1 c0 :: acc2)
      | _ => none
    else if regexGoodChar c then regexParseGo rest (RegexTok.lit c :: acc)
    else none

/-- Match a token list against a prefix of the character list, returning
the number of characters consumed.  The rep1 case is greedy with
backtracking, the crate's leftmost-first behaviour. -/
def regexMatchToksGo : List Char → List RegexTok → Option Nat
  | _, [] => some 0
  | [], _ :: _ => none
  | d :: s2, RegexTok.lit c :: ts2 =>
    if d = c then (regexMatchToksGo s2 ts2).map (· + 1) else none
  | d :: s2, RegexTok.rep1 c :: ts2 =>
    if d = c then
      match regexMatchToksGo s2 (RegexTok.rep1 c :: ts2) with
      | some n => some (n + 1)
      | none => (regexMatchToksGo s2 ts2).map (· + 1)
    else none

/-- Token matching with the argument order of the rest of the file. -/
def regexMatchToks (ts : List RegexTok) (s : List Char) : Option Nat :=
  regexMatchToksGo s ts

/-- Leftmost match of a token list in a character list: returns the start
offset and the matched length of the first position that matches. -/
def regexFindFrom (ts : List RegexTok) : List Char → Option (Nat × Nat)
  | [] => (regexMatchToks ts []).map (fun n => (0, n))
  | d :: s =>
    match regexMatchToks ts (d :: s) with
    | some n => some (0, n)
    | none => (regexFindFrom ts s).map (fun p => (p.1 + 1, p.2))

/-- First-occurrence replacement over the token list, the model of
`Regex::replace` with a literal replacement string; with no match the
haystack is returned unchanged, as the crate does. -/
def regexReplaceFirst (ts : List RegexTok) (hay tmpl : String) : String :=
  match regexFindFrom ts hay.toList with
  | some (i, n) =>
    String.mk (hay.toList.take i) ++ tmpl ++ String.mk (hay.toList.drop (i + n))
  | none => hay

/-- The concrete regex engine used by witnesses and counterexamples. -/
def miniCompile : RegexEngine := fun pattern =>
  (regexParseGo pattern.toList []).map (fun ts =>
    { isMatch := fun s => (regexFindFrom ts s.toList).isSome
      replaceFirst := fun s tmpl => regexReplaceFirst ts s tmpl })

/-- `PathMatchType` from src/rust-proxy/src/vojo/matcher.rs (the source
constructor names are Prefix, Exact, Regex). -/
inductive PathMatchType where
  | Pre
  | Exact
  | Regex
deriving DecidableEq

/-- `MatcherRule` from src/rust-proxy/src/vojo/matcher.rs.  The lazily
compiled cached regex field is omitted: compilation is deterministic, so
recompiling at each evaluation gives the same result, and equality and
serialisation in the source ignore the cache. -/
inductive MatcherRule where
  | path (value : String) (match_type : PathMatchType)
  | host (value : String)
  | header (name : String) (value : String)
  | method (values : List String)
deriving DecidableEq

/-- `MatcherRule::matches` from src/rust-proxy/src/vojo/matcher.rs lines
83-215.  A Host or Header rule first compiles its pattern; evaluation is
true only when both the named header is present and the pattern compiled
and matches.  A Path rule with match type Regex is false when the pattern
fails to compile. -/
def MatcherRule.matches (eng : RegexEngine) (rule : MatcherRule)
    (method : String) (path : String) (headers : List (String × String)) : Bool :=
  match rule with
  | .path value mt =>
    match mt with
    | .Pre => strStartsWith path value
    | .Exact => path == value
    | .Regex =>
      match eng value with
      | some re => re.isMatch path
      | none => false
  | .method values => values.contains method
  | .host value =>
    match headerGet headers "Host", eng value with
    | some h, some re => re.isMatch h
    | _, _ => false
  | .header name value =>
    match headerGet headers name, eng value with
    | some h, some re => re.isMatch h
    | _, _ => false

/-- The fields of `RouteConfig` (src/rust-proxy/src/vojo/app_config.rs)
relevant to matching and rewriting; router, middlewares, health check and
the other fields do not influence the matcher semantics. -/
structure RouteConfig where
  matchers : List MatcherRule
  path_rewrite : Option String
deriving DecidableEq

/-- A route matches a request when ALL of its matcher rules evaluate true,
the conjunction at the top of `RouteConfig::match_and_rewrite`
(src/rust-proxy/src/vojo/app_config.rs lines 133-140). -/
def RouteConfig.isMatchedBy (eng : RegexEngine) (rc : RouteConfig)
    (method : String) (path : String) (headers : List (String × String)) : Bool :=
  rc.matchers.all (fun r => r.matches eng method path headers)

/-- `RouteConfig::match_and_rewrite` from
src/rust-proxy/src/vojo/app_config.rs lines 126-161.  Note the source
always tries `Regex::new` on the first Path matcher's value, whatever its
match type; the strip-and-concatenate branch is reached only when the
pattern fails to compile as a regex. -/
def RouteConfig.matchAndRewrite (eng : RegexEngine) (rc : RouteConfig)
    (path : String) (method : String) (headers : List (String × String)) :
    Option String :=
  if rc.isMatchedBy eng method path headers then
    match rc.path_rewrite with
    | none => some path
    | some rewrite_template =>
      match rc.matchers.findSome? (fun m =>
          match m with
          | .path v _ => some v
          | _ => none) with
      | none => some path
      | some pattern =>
        match eng pattern with
        | some re => some (re.replaceFirst path rewrite_template)
        | none =>
          if strStartsWith path pattern then
            some (rewrite_template ++ strDrop path pattern.length)
          else some path
  else none

/-- The route selection loop of `CommonCheckRequest::get_destination`
(src/rust-proxy/src/proxy/proxy_trait.rs lines 132-176): walk the
listener's route configs in declaration order and pick the first whose
matching predicate holds; later routes are not examined.  The body of the
per-route predicate `RouteConfig::is_matched` is not present under src/;
it is modelled, per the spec and consistently with
`RouteConfig::match_and_rewrite`, as the conjunction of the route's
matcher rules. -/
def selectRoute (eng : RegexEngine) :
    List RouteConfig → String → String → List (String × String) →
    Option (Nat × RouteConfig)
  | [], _, _, _ => none
  | rc :: rest, method, path, headers =>
    if rc.isMatchedBy eng method path headers then some (0, rc)
    else (selectRoute eng rest method path headers).map (fun p => (p.1 + 1, p.2))

/-- A denial produced by a middleware check
(src/rust-proxy/src/middleware/middlewares.rs).  Statuses are modelled by
their numeric codes. -/
structure Denial where
  status : Nat
  headers : List (String × String)
  body : String
deriving DecidableEq

/-- `CheckResult` from src/rust-proxy/src/middleware/middlewares.rs. -/
inductive CheckResult where
  | Allowed
  | Denied (d : Denial)
deriving DecidableEq

/-- The circuit breaker `State` from
src/rust-proxy/src/middleware/circuit_breaker.rs lines 19-33. -/
inductive CBState where
  | Closed (failures : Nat) (total_requests : Nat) (consecutive_failures : Nat)
  | Open (opens_at : Nat)
  | HalfOpen (success_probes : Nat) (total_probes : Nat)
deriving DecidableEq

/-- `CircuitBreaker` from src/rust-proxy/src/middleware/circuit_breaker.rs.
The f64 failure rate threshold is modelled as an exact rational; Instant
values are Nat milliseconds. -/
structure CircuitBreaker where
  failure_rate_threshold : ℚ
  consecutive_failure_threshold : Nat
  open_duration : Nat
  half_open_max_requests : Nat
  min_requests_for_rate_calculation : Nat
  state : CBState
deriving DecidableEq

/-- `CircuitBreaker::is_call_allowed` (circuit_breaker.rs lines 110-127),
with the current instant passed explicitly.  In the Open state an
admission check at or past `opens_at` mutates the state to HalfOpen with
zero probes and allows the call; an earlier check denies and leaves the
state untouched.  In the HalfOpen state the check compares `total_probes`
with the configured maximum and does not mutate anything. -/
def CircuitBreaker.isCallAllowed (now : Nat) (cb : CircuitBreaker) :
    Bool × CircuitBreaker :=
  match cb.state with
  | .Closed _ _ _ => (true, cb)
  | .Open opens_at =>
    if opens_at ≤ now then (true, { cb with state := .HalfOpen 0 0 })
    else (false, cb)
  | .HalfOpen _ total_probes =>
    (decide (total_probes < cb.half_open_max_requests), cb)

/-- The denial produced by the circuit breaker middleware
(circuit_breaker.rs lines 75-84): status 503 with a Retry-After: 30
header. -/
def circuitBreakerDenial : Denial :=
  { status := 503, headers := [("Retry-After", "30")], body := "Service unavailable" }

/-- `check_request` of the circuit breaker middleware (circuit_breaker.rs
lines 63-88). -/
def CircuitBreaker.checkRequest (now : Nat) (cb : CircuitBreaker) :
    CheckResult × CircuitBreaker :=
  let r := cb.isCallAllowed now
  if r.1 then (.Allowed, r.2) else (.Denied circuitBreakerDenial, r.2)

/-- Run a sequence of admission checks at the given instants, collecting
the results and threading the breaker state. -/
def CircuitBreaker.checkMany (cb : CircuitBreaker) :
    List Nat → List CheckResult × CircuitBreaker
  | [] => ([], cb)
  | t :: ts =>
    let r := cb.checkRequest t
    let rest := r.2.checkMany ts
    (r.1 :: rest.1, rest.2)

/-- `CircuitBreaker::trip` (circuit_breaker.rs lines 190-194). -/
def CircuitBreaker.trip (now : Nat) (cb : CircuitBreaker) : CircuitBreaker :=
  { cb with state := .Open (now + cb.open_duration) }

/-- `CircuitBreaker::record_success` (circuit_breaker.rs lines 129-151).
In the HalfOpen state the probe counters are incremented and then
immediately discarded by `reset_to_closed`; the net effect is the fully
reset Closed state. -/
def CircuitBreaker.recordSuccess (cb : CircuitBreaker) : CircuitBreaker :=
  match cb.state with
  | .Closed f t _ => { cb with state := .Closed f (t + 1) 0 }
  | .HalfOpen _ _ => { cb with state := .Closed 0 0 0 }
  | .Open _ => cb

/-- `CircuitBreaker::record_failure` (circuit_breaker.rs lines 153-188).
In the HalfOpen state `total_probes` is incremented and then the state is
replaced by `trip`; the net effect is the Open state. -/
def CircuitBreaker.recordFailure (now : Nat) (cb : CircuitBreaker) : CircuitBreaker :=
  match cb.state with
  | .Closed f t c =>
    let f2 := f + 1
    let t2 := t + 1
    let c2 := c + 1
    if c2 ≥ cb.consecutive_failure_threshold then cb.trip now
    else if t2 ≥ cb.min_requests_for_rate_calculation ∧
        (f2 : ℚ) / (t2 : ℚ) ≥ cb.failure_rate_threshold then cb.trip now
    else { cb with state := .Closed f2 t2 c2 }
  | .HalfOpen _ _ => cb.trip now
  | .Open _ => cb

/-- `LimitLocation` from src/rust-proxy/src/middleware/rate_limit.rs. -/
inductive LimitLocation where
  | IP (value : String)
  | Header (key : String) (value : String)
  | Iprange (value : String)
deriving DecidableEq

/-- `LimitLocation::get_key` (rate_limit.rs lines 99-107). -/
def LimitLocation.getKey : LimitLocation → String
  | .IP v => v
  | .Header k v => k ++ ":" ++ v
  | .Iprange v => v

/-- Parse a dotted-quad IPv4 address into its 32-bit value; the model of
`str::parse::<Ipv4Addr>`. -/
def parseIpv4 (s : String) : Option Nat :=
  match splitOnChar '.' s with
  | [a, b, c, d] =>
    match strToNat a, strToNat b, strToNat c, strToNat d with
    | some a2, some b2, some c2, some d2 =>
      if a2 ≤ 255 ∧ b2 ≤ 255 ∧ c2 ≤ 255 ∧ d2 ≤ 255 then
        some (((a2 * 256 + b2) * 256 + c2) * 256 + d2)
      else none
    | _, _, _, _ => none
  | _ => none

/-- Membership of an address in a CIDR range, the model of
`IpRange<Ipv4Net>::contains`: the top prefix-length bits must agree. -/
def cidrContains (net : String) (ip : String) : Except String Bool :=
  match splitOnChar '/' net with
  | [addr, len] =>
    match parseIpv4 addr, strToNat len, parseIpv4 ip with
    | some a, some n, some b =>
      if n ≤ 32 then .ok (a / 2 ^ (32 - n) == b / 2 ^ (32 - n))
      else .error "invalid prefix length"
    | _, _, _ => .error "ip parse error"
  | _ => .error "ip range parse error"

/-- `matched` from rate_limit.rs lines 182-213: does the limiter's scope
apply to this request?  The Iprange arm first insists on a slash in the
configured value and then delegates to CIDR membership; parse failures
surface as errors, as the source's ? operator does. -/
def scopeMatched (loc : LimitLocation) (headers : List (String × String))
    (peerIp : String) : Except String Bool :=
  match loc with
  | .IP v => .ok (v == peerIp)
  | .Header k v =>
    match headerGet headers k with
    | none => .ok false
    | some hv => .ok (hv == v)
  | .Iprange v =>
    if v.toList.contains '/' then cidrContains v peerIp
    else .error "The Ip Range should contain '/'."

/-- `TimeUnit` from rate_limit.rs lines 108-118. -/
inductive TimeUnit where
  | MillionSecond
  | Second
  | Minute
  | Hour
  | Day
deriving DecidableEq

/-- `TimeUnit::get_million_second` (rate_limit.rs lines 119-129); also the
value of `get_window_size_ms`. -/
def TimeUnit.getMillionSecond : TimeUnit → Nat
  | .MillionSecond => 1
  | .Second => 1000
  | .Minute => 60000
  | .Hour => 3600000
  | .Day => 86400000

/-- Truncating cast of an unsigned value to i32, the model of Rust's
`as i32` on a u128. -/
def toI32 (n : Nat) : Int :=
  if n % 2 ^ 32 < 2 ^ 31 then ((n % 2 ^ 32 : Nat) : Int)
  else ((n % 2 ^ 32 : Nat) : Int) - 2 ^ 32

/-- Two's-complement wrap of an integer into the i32 range, the model of
release-mode i32 addition overflow. -/
def wrap32 (z : Int) : Int :=
  if z % 2 ^ 32 < 2 ^ 31 then z % 2 ^ 32 else z % 2 ^ 32 - 2 ^ 32

/-- Cast of an i32 value to u128, the model of `as u128`. -/
def u128OfI32 (z : Int) : Nat := (z % 2 ^ 128).toNat

/-- `TokenBucketRateLimit` from rate_limit.rs lines 130-152.  i32 fields
are Int with explicit truncation in the operations; the SystemTime field
is Nat milliseconds since the epoch. -/
structure TokenBucketRateLimit where
  rate_per_unit : Int
  unit : TimeUnit
  capacity : Int
  scope : LimitLocation
  current_count : Int
  last_update_time : Nat
deriving DecidableEq

/-- Outcome of a `should_limit` call.  `pass` is Ok(None); `limited` is
Ok(Some(headers)) — the construction of the rate-limit response headers
mutates no limiter state (rate_limit.rs lines 241-252 and 290-305) and no
claim concerns their contents, so they are not modelled; `err` is a
propagated Err, which leaves the state untouched. -/
inductive LimitOutcome where
  | err (msg : String)
  | pass
  | limited
deriving DecidableEq

/-- One call of the limiter: the instant of the call and the request data
its scope can look at. -/
structure TBCall where
  nowMs : Nat
  headers : List (String × String)
  peerIp : String

/-- The number of tokens a refill adds,
`(elapsed_ms * rate_per_unit as u128) / unit_ms` computed in u128
(rate_limit.rs lines 228-230); Nat subtraction only feeds this when
`nowMs ≥ last_update_time`, the case in which the source reaches it. -/
def tbTokensToAdd (tb : TokenBucketRateLimit) (nowMs : Nat) : Nat :=
  (nowMs - tb.last_update_time) * u128OfI32 tb.rate_per_unit % 2 ^ 128 /
    tb.unit.getMillionSecond

/-- `TokenBucketRateLimit::should_limit` (rate_limit.rs lines 215-255).
An out-of-scope request is a no-op; `duration_since` fails when the clock
reads earlier than the stored instant, propagating an error with no state
change; a positive refill is added through the `as i32` truncating cast
and clamped above by the capacity; a positive count admits the request
and is decremented, otherwise the request is limited. -/
def TokenBucketRateLimit.shouldLimit (tb : TokenBucketRateLimit)
    (nowMs : Nat) (headers : List (String × String)) (peerIp : String) :
    TokenBucketRateLimit × LimitOutcome :=
  match scopeMatched tb.scope headers peerIp with
  | .error e => (tb, .err e)
  | .ok false => (tb, .pass)
  | .ok true =>
    if nowMs < tb.last_update_time then (tb, .err "duration_since")
    else
      let tokens_to_add := tbTokensToAdd tb nowMs
      let tb2 :=
        if 0 < tokens_to_add then
          { tb with
            current_count := min (wrap32 (tb.current_count + toI32 tokens_to_add)) tb.capacity
            last_update_time := nowMs }
        else tb
      if 0 < tb2.current_count then
        ({ tb2 with current_count := tb2.current_count - 1 }, .pass)
      else (tb2, .limited)

/-- The token bucket invariant claimed by the spec. -/
def TBInv (tb : TokenBucketRateLimit) : Prop :=
  0 ≤ tb.current_count ∧ tb.current_count ≤ tb.capacity

/-- A run of `should_limit` calls in which each refill stays clear of i32
truncation: at every step the computed `tokens_to_add` plus the capacity
is below 2^31.  The final state is the fold of the calls. -/
inductive TBRunOK : TokenBucketRateLimit → List TBCall → TokenBucketRateLimit → Prop where
  | nil (tb : TokenBucketRateLimit) : TBRunOK tb [] tb
  | cons (tb : TokenBucketRateLimit) (c : TBCall) (cs : List TBCall)
      (tbEnd : TokenBucketRateLimit)
      (hbound : (tbTokensToAdd tb c.nowMs : Int) + tb.capacity < 2 ^ 31)
      (hrest : TBRunOK (tb.shouldLimit c.nowMs c.headers c.peerIp).1 cs tbEnd) :
      TBRunOK tb (c :: cs) tbEnd

/-- `FixedWindowRateLimit` from rate_limit.rs lines 256-264.  The count
map (a HashMap in the source) is modelled as an association list; HashMap
iteration order is unspecified, so the eviction of `keys().next()` is
modelled as removal of the list head. -/
structure FixedWindowRateLimit where
  rate_per_unit : Int
  unit : TimeUnit
  scope : LimitLocation
  count_map : List (String × Int)
deriving DecidableEq

/-- `entry(key).or_insert(0); *counter += 1` on the association list. -/
def countMapIncr : List (String × Int) → String → List (String × Int)
  | [], k => [(k, 1)]
  | (k0, v) :: rest, k =>
    if k0 = k then (k0, v + 1) :: rest else (k0, v) :: countMapIncr rest k

/-- The count-map key of a call, `"<scope_key>:<window_id>"` where the
window id is `now_ms / window_size_ms` (`get_time_key`, rate_limit.rs
lines 166-180; for the millisecond unit the window start itself equals
`now_ms / 1`, so the division form is uniform across units). -/
def fwKey (fw : FixedWindowRateLimit) (nowMs : Nat) : String :=
  fw.scope.getKey ++ ":" ++ natToStr (nowMs / fw.unit.getMillionSecond)

/-- `FixedWindowRateLimit::should_limit` (rate_limit.rs lines 265-308).
When the map already holds `DEFAULT_FIXEDWINDOW_MAP_SIZE` (= 3,
src/rust-proxy/src/constants/common_constants.rs) entries, one existing
entry is evicted before the increment, whether or not the incoming key is
already present. -/
def FixedWindowRateLimit.shouldLimit (fw : FixedWindowRateLimit)
    (nowMs : Nat) (headers : List (String × String)) (peerIp : String) :
    FixedWindowRateLimit × LimitOutcome :=
  match scopeMatched fw.scope headers peerIp with
  | .error e => (fw, .err e)
  | .ok false => (fw, .pass)
  | .ok true =>
    let key := fwKey fw nowMs
    let m := if fw.count_map.length ≥ 3 then fw.count_map.tail else fw.count_map
    let counter := ((m.lookup key).getD 0) + 1
    let fw2 := { fw with count_map := countMapIncr m key }
    if fw2.rate_per_unit - counter ≥ 0 then (fw2, .pass) else (fw2, .limited)

/-- Fold a sequence of calls through the fixed-window limiter. -/
def fwRunCalls (fw : FixedWindowRateLimit) : List TBCall → FixedWindowRateLimit
  | [] => fw
  | c :: cs => fwRunCalls (fw.shouldLimit c.nowMs c.headers c.peerIp).1 cs

/-- `JwtAlgorithm` from src/rust-proxy/src/middleware/authentication.rs. -/
inductive JwtAlgorithm where
  | HS256
  | HS384
  | HS512
deriving DecidableEq

/-- `JwtAuth` from authentication.rs lines 32-38. -/
structure JwtAuth where
  secret : String
  algorithm : JwtAlgorithm
  issuer : Option String
  audience : Option String
deriving DecidableEq

/-- `BasicAuth` from authentication.rs lines 116-119. -/
structure BasicAuth where
  credentials : String
deriving DecidableEq

/-- `ApiKeyAuth` from authentication.rs lines 139-143. -/
structure ApiKeyAuth where
  key : String
  value : String
deriving DecidableEq

/-- `Authentication` from authentication.rs lines 74-83. -/
inductive Authentication where
  | Basic (auth : BasicAuth)
  | ApiKey (auth : ApiKeyAuth)
  | Jwt (auth : JwtAuth)
deriving DecidableEq

/-- The base64 alphabet of the standard engine. -/
def base64Chars : List Char :=
  "ABCDEFGHIJKLMNOPQRSTUVWXYZabcdefghijklmnopqrstuvwxyz0123456789+/".toList

/-- Standard base64 without padding over a byte list, the model of
`general_purpose::STANDARD_NO_PAD.encode`. -/
def base64EncodeGo : List Nat → List Char
  | [] => []
  | [b1] =>
    [base64Chars.getD (b1 / 4) ' ', base64Chars.getD (b1 % 4 * 16) ' ']
  | [b1, b2] =>
    [base64Chars.getD (b1 / 4) ' ',
     base64Chars.getD (b1 % 4 * 16 + b2 / 16) ' ',
     base64Chars.getD (b2 % 16 * 4) ' ']
  | b1 :: b2 :: b3 :: rest =>
    base64Chars.getD (b1 / 4) ' ' ::
    base64Chars.getD (b1 % 4 * 16 + b2 / 16) ' ' ::
    base64Chars.getD (b2 % 16 * 4 + b3 / 64) ' ' ::
    base64Chars.getD (b3 % 64) ' ' :: base64EncodeGo rest

/-- Base64 (standard alphabet, no padding) of a string's UTF-8 bytes. -/
def base64NoPad (s : String) : String :=
  String.mk (base64EncodeGo (s.toUTF8.toList.map (fun b => b.toNat)))

/-- `BasicAuth::check_authentication` (authentication.rs lines 121-137). -/
def BasicAuth.checkAuthentication (a : BasicAuth)
    (headers : List (String × String)) : Except String Bool :=
  if headers.isEmpty || (headerGet headers "Authorization").isNone then .ok false
  else
    match headerGet headers "Authorization" with
    | none => .error "Can not find Authorization"
    | some value =>
      let split_list := splitOnChar ' ' value
      if split_list.length ≠ 2 ∨ split_list.getD 0 "" ≠ "Basic" then .ok false
      else .ok (split_list.getD 1 "" == base64NoPad a.credentials)

/-- `ApiKeyAuth::check_authentication` (authentication.rs lines 145-153). -/
def ApiKeyAuth.checkAuthentication (a : ApiKeyAuth)
    (headers : List (String × String)) : Except String Bool :=
  if headers.isEmpty || (headerGet headers a.key).isNone then .ok false
  else
    match headerGet headers a.key with
    | none => .error "Can not find key"
    | some hv => .ok (hv == a.value)

/-- `JwtAuth::check_authentication` (authentication.rs lines 40-72).
Validation of the bearer token is performed by the external jsonwebtoken
crate; the embedding is parameterised by that validation function
`jwtValid`, so every theorem quantified over it holds for the real
crate. -/
def JwtAuth.checkAuthentication (jwtValid : JwtAuth → String → Bool)
    (a : JwtAuth) (headers : List (String × String)) : Except String Bool :=
  match headerGet headers "Authorization" with
  | some auth_str =>
    if strStartsWith auth_str "Bearer " then .ok (jwtValid a (strDrop auth_str 7))
    else .ok false
  | none => .ok false

/-- `Authentication::check_authentication` (authentication.rs lines
103-114). -/
def Authentication.checkAuthentication (jwtValid : JwtAuth → String → Bool)
    (auth : Authentication) (headers : List (String × String)) :
    Except String Bool :=
  match auth with
  | .Basic a => a.checkAuthentication headers
  | .ApiKey a => a.checkAuthentication headers
  | .Jwt a => JwtAuth.checkAuthentication jwtValid a headers

/-- `check_request` of the authentication middleware (authentication.rs
lines 84-102): with no header map the body is skipped entirely and the
request is allowed. -/
def Authentication.checkRequest (jwtValid : JwtAuth → String → Bool)
    (auth : Authentication)
    (headersOption : Option (List (String × String))) :
    Except String CheckResult :=
  match headersOption with
  | some header_map =>
    match auth.checkAuthentication jwtValid header_map with
    | .error e => .error e
    | .ok true => .ok .Allowed
    | .ok false =>
      .ok (.Denied { status := 401, headers := [], body := "Authentication failed" })
  | none => .ok .Allowed

/-- `Ratelimit` from rate_limit.rs lines 26-33. -/
inductive Ratelimit where
  | TokenBucket (tb : TokenBucketRateLimit)
  | FixedWindow (fw : FixedWindowRateLimit)
deriving DecidableEq

/-- `Ratelimit::should_limit` (rate_limit.rs lines 55-66). -/
def Ratelimit.shouldLimit (rl : Ratelimit) (nowMs : Nat)
    (headers : List (String × String)) (peerIp : String) :
    Ratelimit × LimitOutcome :=
  match rl with
  | .TokenBucket tb =>
    let r := tb.shouldLimit nowMs headers peerIp
    (.TokenBucket r.1, r.2)
  | .FixedWindow fw =>
    let r := fw.shouldLimit nowMs headers peerIp
    (.FixedWindow r.1, r.2)

/-- `check_request` of the rate limit middleware (rate_limit.rs lines
34-54): with no header map the limiter is never consulted and the request
is allowed; a limited request is denied with status 429.  (The denial's
response headers are not modelled, see `LimitOutcome`.) -/
def Ratelimit.checkRequest (rl : Ratelimit) (nowMs : Nat) (peerIp : String)
    (headersOption : Option (List (String × String))) :
    Except String (CheckResult × Ratelimit) :=
  match headersOption with
  | none => .ok (.Allowed, rl)
  | some header_map =>
    match rl.shouldLimit nowMs header_map peerIp with
    | (_, .err e) => .error e
    | (rl2, .pass) => .ok (.Allowed, rl2)
    | (rl2, .limited) =>
      .ok (.Denied { status := 429, headers := [], body := "API rate limit exceeded" }, rl2)

/-- Modelled from the spec: the file middleware/cors_config.rs is not
present under src/ (only its uses are).  Per the spec, allowed origins
are either the wildcard All or an explicit list. -/
inductive CorsAllowedOrigins where
  | All
  | Origins (l : List String)
deriving DecidableEq

/-- Modelled from the spec: `CorsConfig` with the field names and shapes
used by the code under src/ (construction sites in tests and
`handle_preflight`).  `allowed_methods` entries and the optional
`allowed_headers` are modelled by their display strings, which is all
`handle_preflight` consumes. -/
structure CorsConfig where
  allowed_origins : CorsAllowedOrigins
  allowed_methods : List String
  allowed_headers : Option String
  allow_credentials : Option Bool
  max_age : Option Nat
  options_passthrough : Option Bool
deriving DecidableEq

/-- Modelled from the spec: `CorsConfig::validate_origin` (its body is in
the missing cors_config.rs) returns whether the given origin must be
rejected; with allowed_origins = All no origin is rejected — the spec
requires a configured wildcard CORS middleware to answer preflights with
204, which forces this polarity at the `handle_preflight` call site. -/
def CorsConfig.validateOrigin (c : CorsConfig) (origin : String) : Bool :=
  match c.allowed_origins with
  | .All => false
  | .Origins l => !(l.contains origin)

/-- An HTTP response: status code and headers as built by the embedded
handlers (bodies of the preflight responses are empty strings). -/
structure HttpResponse where
  status : Nat
  headers : List (String × String)
  body : String
deriving DecidableEq

/-- `CommonCheckRequest::handle_preflight` from
src/rust-proxy/src/proxy/proxy_trait.rs lines 178-227.  Note the origin
validated is the empty-string literal, and the Access-Control-Allow-Origin
header is set to the `origin` argument verbatim. -/
def handlePreflight (cors_config : CorsConfig) (origin : String) : HttpResponse :=
  if cors_config.validateOrigin "" then
    { status := 403, headers := [], body := "" }
  else
    let methods_header := joinSep ", " cors_config.allowed_methods
    let headers_header := joinSep ", " cors_config.allowed_headers.toList
    let hs := [("Access-Control-Allow-Methods", methods_header),
               ("Access-Control-Allow-Headers", headers_header),
               ("Access-Control-Allow-Origin", origin),
               ("Vary", "Origin")]
    let hs := hs ++ (match cors_config.allow_credentials with
      | some true => [("Access-Control-Allow-Credentials", "true")]
      | _ => [])
    let hs := hs ++ (match cors_config.max_age with
      | some s => [("Access-Control-Max-Age", natToStr s)]
      | none => [])
    { status := 204, headers := hs, body := "" }

/-- The middleware list as far as the preflight logic observes it: the
variants as in middlewares.rs lines 46-65; payloads irrelevant to the
claims are omitted. -/
inductive MiddleWares where
  | RateLimit (rl : Ratelimit)
  | Authentication (a : Authentication)
  | AllowDenyList
  | Cors (c : CorsConfig)
  | Headers
  | ForwardHeader
  | CircuitBreaker (cb : CircuitBreaker)
  | RequestHeaders
deriving DecidableEq

/-- `SpireContext::cors_configed` (proxy_trait.rs lines 34-43): the first
Cors middleware of the matched route, if any. -/
def corsConfiged : List MiddleWares → Option CorsConfig
  | [] => none
  | .Cors c :: _ => some c
  | _ :: rest => corsConfiged rest

/-- The preflight short-circuit of `proxy`
(src/rust-proxy/src/proxy/http1/http_proxy.rs lines 319-328): an OPTIONS
request carrying both Origin and Access-Control-Request-Method headers,
whose matched route has a CORS middleware, is answered directly by
`handle_preflight` with an empty-string origin argument; `some` means the
proxy returns this response before the websocket and upstream branches
run, so no upstream is contacted. -/
def preflightCheck (method : String) (headers : List (String × String))
    (middlewares : Option (List MiddleWares)) : Option HttpResponse :=
  if method == "OPTIONS" ∧ (headerGet headers "Origin").isSome ∧
      (headerGet headers "Access-Control-Request-Method").isSome then
    match corsConfiged (middlewares.getD []) with
    | some cfg => some (handlePreflight cfg "")
    | none => none
  else none

/-- Response bodies as far as the error path is concerned: plain text or
the serialised JSON error envelope with fields response_code and
response_object (serde_json serialises the two keys in this order). -/
inductive ResponseBody where
  | text (s : String)
  | jsonEnvelope (response_code : Int) (response_object : String)
deriving DecidableEq

/-- A gateway response as observed by the error-handling adapter. -/
structure GatewayResponse where
  status : Nat
  body : ResponseBody
deriving DecidableEq

/-- The error branch of the HTTP destination arm of `proxy`
(http_proxy.rs lines 362-380): a failed upstream future becomes an Err
carrying this message, propagated out of `proxy`. -/
def forwardToUpstream (upstreamResult : Option GatewayResponse)
    (request_path : String) : Except String GatewayResponse :=
  match upstreamResult with
  | some resp => .ok resp
  | none => .error ("Request time out,the uri is " ++ request_path)

/-- `proxy_adapter_with_error` (http_proxy.rs lines 182-242) restricted to
its result handling: an Err from `proxy` is converted into a response
with status 500 (INTERNAL_SERVER_ERROR in the source) and the JSON error
envelope with response_code -1 and the error message as response_object.
(The builder fallback for an unbuildable response never fires and is not
modelled.) -/
def proxyAdapterWithError (proxyResult : Except String GatewayResponse) :
    GatewayResponse :=
  match proxyResult with
  | .ok resp => resp
  | .error e => { status := 500, body := .jsonEnvelope (-1) e }

/-- A route that matches exactly the path /a (used by concrete instances). -/
def rcExactA : RouteConfig := { matchers := [.path "/a" .Exact], path_rewrite := none }

/-- A route that matches exactly the path /b (used by concrete instances). -/
def rcExactB : RouteConfig := { matchers := [.path "/b" .Exact], path_rewrite := none }

/-- A route whose path matcher is the Prefix-typed pattern /a+ with a
rewrite template; its pattern also compiles as a regex, in which /a+ means
one or more letters a after a slash. -/
def rcPre : RouteConfig := { matchers := [.path "/a+" .Pre], path_rewrite := some "/new" }

/-- A breaker sitting in the Open state until instant 50. -/
def cbOpen50 : CircuitBreaker :=
  { failure_rate_threshold := 0
    consecutive_failure_threshold := 5
    open_duration := 100
    half_open_max_requests := 2
    min_requests_for_rate_calculation := 10
    state := .Open 50 }

/-- A Closed breaker two consecutive failures away from its threshold. -/
def cbClosed2 : CircuitBreaker :=
  { failure_rate_threshold := 1 / 2
    consecutive_failure_threshold := 3
    open_duration := 100
    half_open_max_requests := 2
    min_requests_for_rate_calculation := 10
    state := .Closed 0 0 2 }

/-- A HalfOpen breaker that tolerates a single probe. -/
def cbHalfOpen1 : CircuitBreaker :=
  { failure_rate_threshold := 0
    consecutive_failure_threshold := 5
    open_duration := 100
    half_open_max_requests := 1
    min_requests_for_rate_calculation := 10
    state := .HalfOpen 0 0 }

/-- A token bucket with capacity 2 refilling one token per second. -/
def tbSmall : TokenBucketRateLimit :=
  { rate_per_unit := 1
    unit := .Second
    capacity := 2
    scope := .IP "9.9.9.9"
    current_count := 0
    last_update_time := 0 }

/-- A millisecond-unit token bucket about to see a 2^31 ms clock jump. -/
def tbJump : TokenBucketRateLimit :=
  { rate_per_unit := 1
    unit := .MillionSecond
    capacity := 10
    scope := .IP "1.2.3.4"
    current_count := 0
    last_update_time := 0 }

/-- A fixed-window limiter whose count map is already at the bound of 3. -/
def fwFull : FixedWindowRateLimit :=
  { rate_per_unit := 2
    unit := .Second
    scope := .IP "7.7.7.7"
    count_map := [("a", 1), ("b", 1), ("c", 1)] }

/-- A wildcard CORS configuration allowing GET and POST with max age
3600, the configuration of the spec's preflight scenario. -/
def cfgCors : CorsConfig :=
  { allowed_origins := .All
    allowed_methods := ["GET", "POST"]
    allowed_headers := none
    allow_credentials := none
    max_age := some 3600
    options_passthrough := some true }

/-- Headers of a CORS preflight request from origin https://a.com. -/
def hdrsPreflight : List (String × String) :=
  [("Origin", "https://a.com"), ("Access-Control-Request-Method", "POST")]

/-- The preflight answer the engine produces for `cfgCors`. -/
def respCors : HttpResponse := handlePreflight cfgCors ""

/-- A single admission check on a breaker in the Open state before
`opens_at` denies with the 503 Retry-After denial and leaves the breaker
untouched. -/
theorem checkRequest_open_early (cb : CircuitBreaker) (oa t : Nat)
    (hs : cb.state = .Open oa) (ht : t < oa) :
    cb.checkRequest t = (.Denied circuitBreakerDenial, cb) := by
  simp [CircuitBreaker.checkRequest, CircuitBreaker.isCallAllowed, hs,
    Nat.not_le.mpr ht]

/-- C3: for a circuit breaker in state Open with instant `opens_at`, every
admission check at an instant strictly before `opens_at` is denied with
status 503 and a Retry-After: 30 header and changes nothing (so no
request is admitted until `opens_at`); the first admission check at or
after `opens_at` moves the breaker to HalfOpen with zero probe counters
and allows the probe. -/
theorem claim_C3_open_admission (cb : CircuitBreaker) (oa : Nat)
    (hs : cb.state = .Open oa) :
    (∀ ts : List Nat, (∀ t ∈ ts, t < oa) →
        (cb.checkMany ts).2 = cb ∧
        ∀ r ∈ (cb.checkMany ts).1, r = .Denied circuitBreakerDenial) ∧
    (∀ now, oa ≤ now →
        cb.checkRequest now = (.Allowed, { cb with state := .HalfOpen 0 0 })) := by
  constructor
  · intro ts hts
    induction ts with
    | nil => simp [CircuitBreaker.checkMany]
    | cons t ts ih =>
      have ht : t < oa := hts t (List.mem_cons_self t ts)
      have hrest := ih (fun u hu => hts u (List.mem_cons_of_mem t hu))
      have hstep := checkRequest_open_early cb oa t hs ht
      simp only [CircuitBreaker.checkMany, hstep]
      exact ⟨hrest.1, by
        intro r hr
        rcases List.mem_cons.mp hr with h | h
        · exact h
        · exact hrest.2 r h⟩
  · intro now hnow
    simp [CircuitBreaker.checkRequest, CircuitBreaker.isCallAllowed, hs, hnow]

/-- Concrete instantiation of C3: the breaker `cbOpen50` denies checks at
instants 10 and 49 without changing state and admits the probe at 60,
switching to HalfOpen. -/
theorem claim_C3_witness :
    (cbOpen50.checkMany [10, 49]).2 = cbOpen50 ∧
    (∀ r ∈ (cbOpen50.checkMany [10, 49]).1, r = .Denied circuitBreakerDenial) ∧
    cbOpen50.checkRequest 60 = (.Allowed, { cbOpen50 with state := .HalfOpen 0 0 }) := by
  have h := claim_C3_open_admission cbOpen50 50 rfl
  exact ⟨(h.1 [10, 49] (by decide)).1, (h.1 [10, 49] (by decide)).2,
    h.2 60 (by decide)⟩

/-- C4: recording a failure on a Closed breaker increments the failure,
total-request and consecutive-failure counters, and trips to
Open with `opens_at = now + open_duration` exactly when the incremented
consecutive count reaches the consecutive threshold or the incremented
totals reach the minimum request volume with a failure rate at or above
the rate threshold; otherwise the breaker stays Closed with the
incremented counters. -/
theorem claim_C4_closed_record_failure (cb : CircuitBreaker) (f t c now : Nat)
    (hs : cb.state = .Closed f t c) :
    (((cb.recordFailure now).state = .Open (now + cb.open_duration)) ↔
      (c + 1 ≥ cb.consecutive_failure_threshold ∨
        (t + 1 ≥ cb.min_requests_for_rate_calculation ∧
          ((f + 1 : Nat) : ℚ) / ((t + 1 : Nat) : ℚ) ≥ cb.failure_rate_threshold))) ∧
    (¬ (c + 1 ≥ cb.consecutive_failure_threshold ∨
        (t + 1 ≥ cb.min_requests_for_rate_calculation ∧
          ((f + 1 : Nat) : ℚ) / ((t + 1 : Nat) : ℚ) ≥ cb.failure_rate_threshold)) →
      (cb.recordFailure now).state = .Closed (f + 1) (t + 1) (c + 1)) := by
  by_cases h1 : c + 1 ≥ cb.consecutive_failure_threshold
  · have he : (cb.recordFailure now).state = .Open (now + cb.open_duration) := by
      simp [CircuitBreaker.recordFailure, hs, h1, CircuitBreaker.trip]
    exact ⟨⟨fun _ => Or.inl h1, fun _ => he⟩, fun hn => absurd (Or.inl h1) hn⟩
  · by_cases h2 : t + 1 ≥ cb.min_requests_for_rate_calculation ∧
        ((f + 1 : Nat) : ℚ) / ((t + 1 : Nat) : ℚ) ≥ cb.failure_rate_threshold
    · have hmin : cb.min_requests_for_rate_calculation ≤ t + 1 := h2.1
      have hrate : cb.failure_rate_threshold ≤ ((f : ℚ) + 1) / ((t : ℚ) + 1) := by
        have := h2.2
        push_cast at this
        exact this
      have he : (cb.recordFailure now).state = .Open (now + cb.open_duration) := by
        simp [CircuitBreaker.recordFailure, hs, h1, hmin, hrate, CircuitBreaker.trip]
      exact ⟨⟨fun _ => Or.inr h2, fun _ => he⟩, fun hn => absurd (Or.inr h2) hn⟩
    · have h2b : ¬ (cb.min_requests_for_rate_calculation ≤ t + 1 ∧
          cb.failure_rate_threshold ≤ ((f : ℚ) + 1) / ((t : ℚ) + 1)) := by
        push_cast at h2
        exact h2
      have he : (cb.recordFailure now).state = .Closed (f + 1) (t + 1) (c + 1) := by
        simp [CircuitBreaker.recordFailure, hs, h1, h2b]
      refine ⟨⟨fun hOpen => ?_, fun hc => ?_⟩, fun _ => he⟩
      · rw [he] at hOpen
        exact absurd hOpen (by simp)
      · rcases hc with hc | hc
        · exact absurd hc h1
        · exact absurd hc h2

/-- Concrete instantiation of C4: the breaker `cbClosed2` with two prior
consecutive failures and threshold 3 trips to Open on the next failure. -/
theorem claim_C4_witness :
    (cbClosed2.recordFailure 7).state = .Open (7 + cbClosed2.open_duration) :=
  ((claim_C4_closed_record_failure cbClosed2 0 0 2 7 rfl).1).mpr (Or.inl (by decide))

/-- C5 (amended): in the HalfOpen state an admission check is allowed
exactly when `total_probes` is below `half_open_max_requests`, but the
check itself never increments `total_probes` nor changes any state, so
any number of checks without an intervening recorded outcome are all
admitted (whenever `total_probes < half_open_max_requests`) and leave the
breaker in HalfOpen; `total_probes` moves only when an outcome is
recorded, and every recorded outcome immediately leaves HalfOpen — a
success resets to Closed and a failure trips to Open. -/
theorem claim_C5_half_open_probes (cb : CircuitBreaker) (sp tp : Nat)
    (hs : cb.state = .HalfOpen sp tp) :
    (∀ now, cb.isCallAllowed now = (decide (tp < cb.half_open_max_requests), cb)) ∧
    (cb.recordSuccess).state = .Closed 0 0 0 ∧
    (∀ now, (cb.recordFailure now).state = .Open (now + cb.open_duration)) ∧
    (∀ ts : List Nat,
        (cb.checkMany ts).2 = cb ∧
        ∀ r ∈ (cb.checkMany ts).1,
          r = if tp < cb.half_open_max_requests then CheckResult.Allowed
              else .Denied circuitBreakerDenial) := by
  have hca : ∀ now, cb.isCallAllowed now = (decide (tp < cb.half_open_max_requests), cb) := by
    intro now
    simp [CircuitBreaker.isCallAllowed, hs]
  refine ⟨hca, ?_, ?_, ?_⟩
  · simp [CircuitBreaker.recordSuccess, hs]
  · intro now
    simp [CircuitBreaker.recordFailure, hs, CircuitBreaker.trip]
  · intro ts
    have hstep : ∀ now, cb.checkRequest now =
        (if tp < cb.half_open_max_requests then CheckResult.Allowed
         else .Denied circuitBreakerDenial, cb) := by
      intro now
      by_cases h : tp < cb.half_open_max_requests
      · simp [CircuitBreaker.checkRequest, hca, h]
      · simp [CircuitBreaker.checkRequest, hca, h]
    induction ts with
    | nil => simp [CircuitBreaker.checkMany]
    | cons t ts ih =>
      simp only [CircuitBreaker.checkMany, hstep]
      exact ⟨ih.1, by
        intro r hr
        rcases List.mem_cons.mp hr with h | h
        · exact h
        · exact ih.2 r h⟩

/-- Counterexample to C5 as stated: `cbHalfOpen1` allows at most one probe
by configuration, yet two consecutive admission checks are both admitted
while the state remains HalfOpen with zero recorded probes — the
transition to Closed happens only at the first recorded outcome, after
two requests have already been admitted. -/
theorem claim_C5_counterexample :
    cbHalfOpen1.half_open_max_requests = 1 ∧
    (cbHalfOpen1.checkMany [5, 6]).1 = [.Allowed, .Allowed] ∧
    ((cbHalfOpen1.checkMany [5, 6]).2).state = .HalfOpen 0 0 ∧
    (((cbHalfOpen1.checkMany [5, 6]).2).recordSuccess).state = .Closed 0 0 0 := by
  refine ⟨rfl, ?_, ?_, ?_⟩ <;> rfl

/-- Concrete instantiation of the amended C5: with `total_probes = 0` and
maximum 1, every check in a run of three is admitted and the breaker
stays in HalfOpen. -/
theorem claim_C5_witness :
    (cbHalfOpen1.checkMany [1, 2, 3]).2 = cbHalfOpen1 ∧
    ∀ r ∈ (cbHalfOpen1.checkMany [1, 2, 3]).1, r = CheckResult.Allowed := by
  have h := (claim_C5_half_open_probes cbHalfOpen1 0 0 rfl).2.2.2 [1, 2, 3]
  refine ⟨h.1, ?_⟩
  intro r hr
  have := h.2 r hr
  simpa using this

/-- C9 (amended): an Err from the request pipeline — in particular a
failed upstream call, whose error carries the request path — is converted
by the adapter into a response with status 500 and the JSON envelope
with response_code -1 and the message as response_object. -/
theorem claim_C9_upstream_error (p msg : String) :
    proxyAdapterWithError (forwardToUpstream none p) =
      { status := 500,
        body := .jsonEnvelope (-1) ("Request time out,the uri is " ++ p) } ∧
    proxyAdapterWithError (.error msg) =
      { status := 500, body := .jsonEnvelope (-1) msg } :=
  ⟨rfl, rfl⟩

/-- Counterexample to C9 as stated: a failed upstream call is answered
with status 500 (INTERNAL_SERVER_ERROR in http_proxy.rs), not 502. -/
theorem claim_C9_counterexample :
    (proxyAdapterWithError (forwardToUpstream none "http://u/x")).status = 500 ∧
    (proxyAdapterWithError (forwardToUpstream none "http://u/x")).status ≠ 502 := by
  exact ⟨rfl, by decide⟩

/-- C10: with no header map supplied to the check phase, both the
authentication middleware and the rate-limit middleware return Allowed
unconditionally — whatever the configured scheme, the JWT validator, the
limiter variant or its internal state. -/
theorem claim_C10_no_headers_bypass :
    (∀ (jwtValid : JwtAuth → String → Bool) (auth : Authentication),
        Authentication.checkRequest jwtValid auth none = .ok .Allowed) ∧
    (∀ (rl : Ratelimit) (nowMs : Nat) (peerIp : String),
        rl.checkRequest nowMs peerIp none = .ok (.Allowed, rl)) :=
  ⟨fun _ _ => rfl, fun _ _ _ => rfl⟩

/-- Characterisation of selection failure: no route is selected exactly
when every route has a failing matcher set. -/
theorem selectRoute_none_iff (eng : RegexEngine) (routes : List RouteConfig)
    (method path : String) (headers : List (String × String)) :
    selectRoute eng routes method path headers = none ↔
      ∀ rc ∈ routes, rc.isMatchedBy eng method path headers = false := by
  induction routes with
  | nil => simp [selectRoute]
  | cons rc0 rest ih =>
    by_cases h : rc0.isMatchedBy eng method path headers = true
    · simp [selectRoute, h]
    · have hf : rc0.isMatchedBy eng method path headers = false := by simpa using h
      simp [selectRoute, h, Option.map_eq_none', ih, hf]

/-- Characterisation of the selection loop: the walk returns the pair
(i, rc) exactly when rc sits at index i, all of rc's matchers pass, and
every earlier route has a failing matcher set. -/
theorem selectRoute_some_iff (eng : RegexEngine) (routes : List RouteConfig)
    (method path : String) (headers : List (String × String))
    (i : Nat) (rc : RouteConfig) :
    selectRoute eng routes method path headers = some (i, rc) ↔
      routes[i]? = some rc ∧ rc.isMatchedBy eng method path headers = true ∧
      ∀ j, j < i → ∀ rc2, routes[j]? = some rc2 →
        rc2.isMatchedBy eng method path headers = false := by
  induction routes generalizing i with
  | nil => simp [selectRoute]
  | cons rc0 rest ih =>
    by_cases h : rc0.isMatchedBy eng method path headers = true
    · simp only [selectRoute, if_pos h]
      cases i with
      | zero =>
        constructor
        · intro he
          have h1 : rc0 = rc := congrArg Prod.snd ((Option.some.injEq _ _).mp he)
          subst h1
          exact ⟨by simp, h, by omega⟩
        · intro hr
          have h1 : rc0 = rc := by simpa using hr.1
          rw [h1]
      | succ k =>
        constructor
        · intro he
          exfalso
          have h0 : (0 : Nat) = k + 1 :=
            congrArg Prod.fst ((Option.some.injEq _ _).mp he)
          omega
        · intro hr
          exfalso
          have h0 := hr.2.2 0 (by omega) rc0 (by simp)
          rw [h] at h0
          cases h0
    · have hf : rc0.isMatchedBy eng method path headers = false := by simpa using h
      simp only [selectRoute, if_neg h]
      cases hsel : selectRoute eng rest method path headers with
      | none =>
        simp only [Option.map_none']
        constructor
        · intro he
          cases he
        · rintro ⟨hrc, hm, -⟩
          exfalso
          cases i with
          | zero =>
            have h1 : rc0 = rc := by simpa using hrc
            rw [h1, hm] at hf
            cases hf
          | succ k =>
            have hall := (selectRoute_none_iff eng rest method path headers).mp hsel
            have hmem : rc ∈ rest := by
              have h1 : rest[k]? = some rc := by simpa using hrc
              exact List.getElem?_mem h1
            have h2 := hall rc hmem
            rw [hm] at h2
            cases h2
      | some p =>
        simp only [Option.map_some']
        constructor
        · intro he
          have hpair := (Option.some.injEq _ _).mp he
          have he1 : p.1 + 1 = i := congrArg Prod.fst hpair
          have he2 : p.2 = rc := congrArg Prod.snd hpair
          subst he2
          cases i with
          | zero => omega
          | succ k =>
            have hk : p.1 = k := by omega
            have hp : selectRoute eng rest method path headers = some (k, p.2) := by
              rw [← hk]
              exact hsel
            have hr := (ih k).mp hp
            refine ⟨by simpa using hr.1, hr.2.1, ?_⟩
            intro j hj rc2 hrc2
            cases j with
            | zero =>
              have h1 : rc0 = rc2 := by simpa using hrc2
              rw [← h1]
              exact hf
            | succ j2 =>
              exact hr.2.2 j2 (by omega) rc2 (by simpa using hrc2)
        · rintro ⟨hrc, hm, hearlier⟩
          cases i with
          | zero =>
            exfalso
            have h1 : rc0 = rc := by simpa using hrc
            rw [h1, hm] at hf
            cases hf
          | succ k =>
            have hrest : selectRoute eng rest method path headers = some (k, rc) :=
              (ih k).mpr ⟨by simpa using hrc, hm,
                fun j hj rc2 hrc2 =>
                  hearlier (j + 1) (by omega) rc2 (by simpa using hrc2)⟩
            rw [hsel] at hrest
            have hpair := (Option.some.injEq _ _).mp hrest
            have e1 : p.1 = k := congrArg Prod.fst hpair
            have e2 : p.2 = rc := congrArg Prod.snd hpair
            simp [e1, e2]

/-- C1: for every request, a route is selected exactly when all of its
matcher rules evaluate true (logical AND) and it is the first such route
in declaration order (no selection happens exactly when no route's rules
all pass, so no later route is ever considered past the first match); a
Host or Header rule whose named header is absent evaluates false, and a
rule whose regex pattern fails to compile (a Regex-typed Path rule, a
Host rule or a Header rule) evaluates false. -/
theorem claim_C1_route_selection (eng : RegexEngine) (routes : List RouteConfig)
    (method path : String) (headers : List (String × String)) :
    (∀ i rc, selectRoute eng routes method path headers = some (i, rc) ↔
        routes[i]? = some rc ∧
        rc.isMatchedBy eng method path headers = true ∧
        ∀ j, j < i → ∀ rc2, routes[j]? = some rc2 →
          rc2.isMatchedBy eng method path headers = false) ∧
    (selectRoute eng routes method path headers = none ↔
        ∀ rc ∈ routes, rc.isMatchedBy eng method path headers = false) ∧
    (∀ rc : RouteConfig, rc.isMatchedBy eng method path headers = true ↔
        ∀ r ∈ rc.matchers, r.matches eng method path headers = true) ∧
    (∀ pat, headerGet headers "Host" = none →
        (MatcherRule.host pat).matches eng method path headers = false) ∧
    (∀ nm pat, headerGet headers nm = none →
        (MatcherRule.header nm pat).matches eng method path headers = false) ∧
    (∀ pat, eng pat = none →
        (MatcherRule.path pat .Regex).matches eng method path headers = false ∧
        (MatcherRule.host pat).matches eng method path headers = false ∧
        ∀ nm, (MatcherRule.header nm pat).matches eng method path headers = false) := by
  refine ⟨fun i rc => selectRoute_some_iff eng routes method path headers i rc,
    selectRoute_none_iff eng routes method path headers, ?_, ?_, ?_, ?_⟩
  · intro rc
    simp [RouteConfig.isMatchedBy, List.all_eq_true]
  · intro pat hnone
    simp [MatcherRule.matches, hnone]
  · intro nm pat hnone
    simp [MatcherRule.matches, hnone]
  · intro pat hnone
    refine ⟨?_, ?_, ?_⟩
    · simp [MatcherRule.matches, hnone]
    · cases hh : headerGet headers "Host" <;>
        simp [MatcherRule.matches, hnone, hh]
    · intro nm
      cases hh : headerGet headers nm <;>
        simp [MatcherRule.matches, hnone, hh]

/-- Concrete instantiation of C1: with one non-matching route ahead of it,
the second route is the one selected for the path /b. -/
theorem claim_C1_witness :
    selectRoute miniCompile [rcExactA, rcExactB] "GET" "/b" [] = some (1, rcExactB) := by
  refine ((claim_C1_route_selection miniCompile [rcExactA, rcExactB] "GET" "/b" []).1
    1 rcExactB).mpr ⟨rfl, by decide, ?_⟩
  intro j hj rc2 hrc2
  have hj0 : j = 0 := by omega
  subst hj0
  have h1 : rcExactA = rc2 := by simpa using hrc2
  rw [← h1]
  decide

/-- C2 (amended): on a matched route with a rewrite template, the rewrite
takes the value of the first Path matcher and always tries to compile it
as a regex, whatever the matcher's match type; when it compiles, the
result is the regex replacement of the first match of the pattern in the
request path by the template; only when it fails to compile is the result
the template concatenated with the request path stripped of the matched
value (the path unchanged when it does not start with the value); a route
with no Path matcher or no template returns the path unchanged. -/
theorem claim_C2_path_rewrite (eng : RegexEngine) (rc : RouteConfig)
    (path method : String) (headers : List (String × String))
    (tmpl pat : String)
    (hm : rc.isMatchedBy eng method path headers = true)
    (hr : rc.path_rewrite = some tmpl)
    (hp : rc.matchers.findSome? (fun m =>
        match m with
        | .path v _ => some v
        | _ => none) = some pat) :
    (∀ re, eng pat = some re →
        rc.matchAndRewrite eng path method headers =
          some (re.replaceFirst path tmpl)) ∧
    (eng pat = none →
        rc.matchAndRewrite eng path method headers =
          some (if strStartsWith path pat then tmpl ++ strDrop path pat.length
                else path)) := by
  constructor
  · intro re hre
    simp [RouteConfig.matchAndRewrite, hm, hr, hp, hre]
  · intro hre
    by_cases hsw : strStartsWith path pat = true
    · simp [RouteConfig.matchAndRewrite, hm, hr, hp, hre, hsw]
    · simp [RouteConfig.matchAndRewrite, hm, hr, hp, hre, hsw]

/-- Counterexample to C2 as stated: the route `rcPre` has a Prefix-typed
path matcher with value /a+ and template /new.  The matcher passes for
the path /a+/c by the starts-with test, and the claim predicts the
prefix-stripped rewrite /new/c; but the value compiles as a regex, so the
code performs regex replacement of its first match (the two characters
/a) and returns /new+/c instead. -/
theorem claim_C2_counterexample :
    rcPre.matchers = [.path "/a+" PathMatchType.Pre] ∧
    rcPre.isMatchedBy miniCompile "GET" "/a+/c" [] = true ∧
    rcPre.matchAndRewrite miniCompile "/a+/c" "GET" [] = some "/new+/c" ∧
    ("/new" ++ strDrop "/a+/c" ("/a+").length) = "/new/c" ∧
    rcPre.matchAndRewrite miniCompile "/a+/c" "GET" [] ≠ some "/new/c" := by
  refine ⟨rfl, by decide, by decide, by decide, by decide⟩

/-- Concrete instantiation of the amended C2: for a route whose path
matcher value fails to compile as a regex (an unclosed character class),
the rewrite is the prefix-strip-and-concatenate form. -/
theorem claim_C2_witness :
    RouteConfig.matchAndRewrite miniCompile
      { matchers := [.path "[" PathMatchType.Pre], path_rewrite := some "/p" }
      "[x" "GET" [] = some "/px" := by
  have h := (claim_C2_path_rewrite miniCompile
      { matchers := [.path "[" PathMatchType.Pre], path_rewrite := some "/p" }
      "[x" "GET" [] "/p" "[" (by decide) rfl rfl).2 rfl
  rw [h]
  decide

/-- The truncating cast is the identity below 2^31. -/
theorem toI32_of_lt (n : Nat) (h : n < 2 ^ 31) : toI32 n = (n : Int) := by
  have h32 : n < 2 ^ 32 := by omega
  unfold toI32
  rw [Nat.mod_eq_of_lt h32, if_pos h]

/-- The i32 wrap is the identity on [0, 2^31). -/
theorem wrap32_of_nonneg_lt (z : Int) (h0 : 0 ≤ z) (h : z < 2 ^ 31) :
    wrap32 z = z := by
  have hmod : z % 2 ^ 32 = z := Int.emod_eq_of_lt h0 (by omega)
  unfold wrap32
  rw [hmod, if_pos h]

/-- One `should_limit` call preserves the token bucket invariant as long
as the computed refill stays clear of i32 truncation. -/
theorem tb_step_inv (tb : TokenBucketRateLimit) (nowMs : Nat)
    (headers : List (String × String)) (peerIp : String)
    (hinv : TBInv tb)
    (hbound : (tbTokensToAdd tb nowMs : Int) + tb.capacity < 2 ^ 31) :
    TBInv (tb.shouldLimit nowMs headers peerIp).1 := by
  obtain ⟨h0, hc⟩ := hinv
  have hcap : 0 ≤ tb.capacity := le_trans h0 hc
  unfold TokenBucketRateLimit.shouldLimit
  cases hsc : scopeMatched tb.scope headers peerIp with
  | error e => exact ⟨h0, hc⟩
  | ok b =>
    cases b with
    | false => exact ⟨h0, hc⟩
    | true =>
      by_cases hlt : nowMs < tb.last_update_time
      · simp only [if_pos hlt]
        exact ⟨h0, hc⟩
      · simp only [if_neg hlt]
        set t := tbTokensToAdd tb nowMs with ht
        by_cases htpos : 0 < t
        · have htlt : (t : Int) < 2 ^ 31 := by omega
          have htn : t < 2 ^ 31 := by exact_mod_cast htlt
          have hti : toI32 t = (t : Int) := toI32_of_lt t htn
          have hsum0 : 0 ≤ tb.current_count + (t : Int) := by positivity
          have hsumlt : tb.current_count + (t : Int) < 2 ^ 31 := by omega
          have hwrap : wrap32 (tb.current_count + toI32 t) = tb.current_count + (t : Int) := by
            rw [hti]
            exact wrap32_of_nonneg_lt _ hsum0 hsumlt
          simp only [if_pos htpos, hwrap]
          set c2 : Int := min (tb.current_count + (t : Int)) tb.capacity with hc2
          have hc20 : 0 ≤ c2 := le_min hsum0 hcap
          have hc2c : c2 ≤ tb.capacity := min_le_right _ _
          by_cases hdec : 0 < c2
          · simp only [if_pos hdec]
            refine ⟨?_, ?_⟩
            · show (0 : Int) ≤ c2 - 1
              omega
            · show c2 - 1 ≤ tb.capacity
              omega
          · simp only [if_neg hdec]
            exact ⟨hc20, hc2c⟩
        · simp only [if_neg htpos]
          by_cases hdec : 0 < tb.current_count
          · simp only [if_pos hdec]
            refine ⟨?_, ?_⟩
            · show (0 : Int) ≤ tb.current_count - 1
              omega
            · show tb.current_count - 1 ≤ tb.capacity
              omega
          · simp only [if_neg hdec]
            exact ⟨h0, hc⟩

/-- C6 (amended): the invariant 0 ≤ current_count ≤ capacity is preserved
by every sequence of `should_limit` calls in which each call's computed
`tokens_to_add` plus the capacity stays below 2^31 (so the `as i32` cast
does not truncate); without that side condition the cast can wrap and the
invariant fails, see the counterexample. -/
theorem claim_C6_token_bucket (tb tbEnd : TokenBucketRateLimit)
    (calls : List TBCall)
    (hinv : TBInv tb) (hrun : TBRunOK tb calls tbEnd) : TBInv tbEnd := by
  induction hrun with
  | nil tb0 => exact hinv
  | cons tb0 c cs tbEnd0 hb hrest ih =>
    exact ih (tb_step_inv tb0 c.nowMs c.headers c.peerIp hinv hb)

set_option maxRecDepth 100000 in
/-- Concrete instantiation of the amended C6: one in-scope call on the
small bucket after a one-second gap keeps the invariant. -/
theorem claim_C6_witness :
    TBInv (tbSmall.shouldLimit 1000 [] "9.9.9.9").1 :=
  claim_C6_token_bucket tbSmall (tbSmall.shouldLimit 1000 [] "9.9.9.9").1
    [{ nowMs := 1000, headers := [], peerIp := "9.9.9.9" }]
    ⟨by decide, by decide⟩
    (TBRunOK.cons tbSmall { nowMs := 1000, headers := [], peerIp := "9.9.9.9" }
      [] _ (by decide) (TBRunOK.nil _))

set_option maxRecDepth 100000 in
/-- Counterexample to C6 as stated: with a millisecond unit and rate 1, a
single call after a 2^31 ms clock gap computes 2^31 tokens, whose `as
i32` cast is -2^31; the bucket's count becomes -2^31, violating
0 ≤ current_count. -/
theorem claim_C6_counterexample :
    (tbJump.shouldLimit (2 ^ 31) [] "1.2.3.4").1.current_count = -(2 ^ 31) ∧
    ¬ (0 ≤ (tbJump.shouldLimit (2 ^ 31) [] "1.2.3.4").1.current_count) := by
  refine ⟨by decide, by decide⟩

/-- First component of a conditional pair with equal first components. -/
theorem fst_ite_pair {c : Prop} [Decidable c] {α β : Type} (a : α) (x y : β) :
    (if c then (a, x) else (a, y)).1 = a := by
  split <;> rfl

/-- Incrementing a key grows the association list by at most one entry. -/
theorem countMapIncr_length_le (m : List (String × Int)) (k : String) :
    (countMapIncr m k).length ≤ m.length + 1 := by
  induction m with
  | nil => simp [countMapIncr]
  | cons p rest ih =>
    obtain ⟨k0, v⟩ := p
    by_cases h : k0 = k
    · simp [countMapIncr, h]
    · simp only [countMapIncr, if_neg h, List.length_cons]
      omega

/-- A key absent from an association list has no lookup result. -/
theorem lookup_none_of_not_mem_keys (k0 : String) (m : List (String × Int))
    (h : k0 ∉ m.map Prod.fst) : m.lookup k0 = none := by
  induction m with
  | nil => simp
  | cons p rest ih =>
    obtain ⟨k1, v⟩ := p
    simp only [List.map_cons, List.mem_cons] at h
    push_neg at h
    have hne : (k0 == k1) = false := by
      simp [h.1]
    simp [List.lookup, hne, ih h.2]

/-- Incrementing a different key never introduces lookups for an absent
key. -/
theorem countMapIncr_lookup_none (k0 k : String) (m : List (String × Int))
    (hne : k0 ≠ k) (h : k0 ∉ m.map Prod.fst) :
    (countMapIncr m k).lookup k0 = none := by
  induction m with
  | nil =>
    simp [countMapIncr, List.lookup, show (k0 == k) = false by simp [hne]]
  | cons p rest ih =>
    obtain ⟨k1, v⟩ := p
    simp only [List.map_cons, List.mem_cons] at h
    push_neg at h
    by_cases hk : k1 = k
    · simp [countMapIncr, hk, List.lookup, show (k0 == k) = false by simp [hne],
        lookup_none_of_not_mem_keys k0 rest h.2]
    · simp [countMapIncr, hk, List.lookup, show (k0 == k1) = false by simp [h.1],
        ih h.2]

/-- One fixed-window call keeps the count map at no more than 3 entries. -/
theorem fw_step_len (fw : FixedWindowRateLimit) (nowMs : Nat)
    (headers : List (String × String)) (peerIp : String)
    (h : fw.count_map.length ≤ 3) :
    (fw.shouldLimit nowMs headers peerIp).1.count_map.length ≤ 3 := by
  unfold FixedWindowRateLimit.shouldLimit
  cases hsc : scopeMatched fw.scope headers peerIp with
  | error e => exact h
  | ok b =>
    cases b with
    | false => exact h
    | true =>
      rw [fst_ite_pair]
      by_cases hlen : fw.count_map.length ≥ 3
      · have h3 : fw.count_map.length = 3 := by omega
        simp only [if_pos hlen]
        have htail : fw.count_map.tail.length = 2 := by
          rw [List.length_tail, h3]
        calc (countMapIncr fw.count_map.tail (fwKey fw nowMs)).length
            ≤ fw.count_map.tail.length + 1 := countMapIncr_length_le _ _
          _ ≤ 3 := by omega
      · simp only [if_neg hlen]
        calc (countMapIncr fw.count_map (fwKey fw nowMs)).length
            ≤ fw.count_map.length + 1 := countMapIncr_length_le _ _
          _ ≤ 3 := by omega

/-- C7: every sequence of fixed-window calls keeps the count map at no
more than DEFAULT_FIXEDWINDOW_MAP_SIZE = 3 entries; and when a call finds
the map at the bound, an existing entry (the one the map iterator yields
first, modelled as the list head) is evicted: its key no longer resolves
afterwards unless it coincides with the key being inserted. -/
theorem claim_C7_fixed_window :
    (∀ (fw : FixedWindowRateLimit) (calls : List TBCall),
        fw.count_map.length ≤ 3 →
        (fwRunCalls fw calls).count_map.length ≤ 3) ∧
    (∀ (fw : FixedWindowRateLimit) (nowMs : Nat)
        (headers : List (String × String)) (peerIp : String)
        (k0 : String) (v0 : Int) (rest : List (String × Int)),
        fw.count_map = (k0, v0) :: rest →
        3 ≤ fw.count_map.length →
        scopeMatched fw.scope headers peerIp = .ok true →
        k0 ≠ fwKey fw nowMs →
        k0 ∉ rest.map Prod.fst →
        (fw.shouldLimit nowMs headers peerIp).1.count_map.lookup k0 = none) := by
  constructor
  · intro fw calls
    induction calls generalizing fw with
    | nil => exact fun h => h
    | cons c cs ih =>
      intro h
      exact ih _ (fw_step_len fw c.nowMs c.headers c.peerIp h)
  · intro fw nowMs headers peerIp k0 v0 rest hmap hlen hsc hne hnotin
    unfold FixedWindowRateLimit.shouldLimit
    rw [hsc]
    rw [fst_ite_pair]
    simp only [if_pos hlen]
    have htail : fw.count_map.tail = rest := by
      rw [hmap]
      rfl
    rw [htail]
    exact countMapIncr_lookup_none k0 (fwKey fw nowMs) rest hne hnotin

/-- Concrete instantiation of C7: a call with a fresh window key on the
full map keeps the bound and evicts the entry with key a. -/
theorem claim_C7_witness :
    (fwRunCalls fwFull [{ nowMs := 5, headers := [], peerIp := "7.7.7.7" }]).count_map.length ≤ 3 ∧
    (fwFull.shouldLimit 5 [] "7.7.7.7").1.count_map.lookup "a" = none := by
  constructor
  · exact claim_C7_fixed_window.1 fwFull
      [{ nowMs := 5, headers := [], peerIp := "7.7.7.7" }] (by decide)
  · exact claim_C7_fixed_window.2 fwFull 5 [] "7.7.7.7" "a" 1
      [("b", 1), ("c", 1)] rfl (by decide) rfl (by decide) (by decide)

/-- C8 (amended): an OPTIONS request carrying both Origin and
Access-Control-Request-Method headers, whose matched route configures a
CORS middleware with the wildcard origin set, is answered directly — no
upstream branch runs — with a synthetic 204 advertising the configured
allowed methods, allowed headers and max-age and setting Vary: Origin;
but the Access-Control-Allow-Origin header is set to the empty string
(the engine passes an empty origin into handle_preflight), not to the
asterisk. -/
theorem claim_C8_preflight (cfg : CorsConfig) (headers : List (String × String))
    (mws : List MiddleWares)
    (hall : cfg.allowed_origins = .All)
    (hcors : corsConfiged mws = some cfg)
    (horigin : (headerGet headers "Origin").isSome = true)
    (hacrm : (headerGet headers "Access-Control-Request-Method").isSome = true) :
    preflightCheck "OPTIONS" headers (some mws) =
      some { status := 204
             headers :=
               [("Access-Control-Allow-Methods", joinSep ", " cfg.allowed_methods),
                ("Access-Control-Allow-Headers", joinSep ", " cfg.allowed_headers.toList),
                ("Access-Control-Allow-Origin", ""),
                ("Vary", "Origin")] ++
               (match cfg.allow_credentials with
                | some true => [("Access-Control-Allow-Credentials", "true")]
                | _ => []) ++
               (match cfg.max_age with
                | some s => [("Access-Control-Max-Age", natToStr s)]
                | none => [])
             body := "" } := by
  simp [preflightCheck, hcors, horigin, hacrm, handlePreflight,
    CorsConfig.validateOrigin, hall]

set_option maxRecDepth 100000 in
/-- Counterexample to C8 as stated: for the wildcard configuration
`cfgCors` the preflight answer is a 204 advertising GET, POST, max-age
3600 and Vary: Origin, but its Access-Control-Allow-Origin header is the
empty string, not the asterisk the claim requires. -/
theorem claim_C8_counterexample :
    preflightCheck "OPTIONS" hdrsPreflight (some [.Cors cfgCors]) = some respCors ∧
    respCors.status = 204 ∧
    headerGet respCors.headers "Access-Control-Allow-Methods" = some "GET, POST" ∧
    headerGet respCors.headers "Access-Control-Max-Age" = some "3600" ∧
    headerGet respCors.headers "Vary" = some "Origin" ∧
    headerGet respCors.headers "Access-Control-Allow-Origin" = some "" ∧
    headerGet respCors.headers "Access-Control-Allow-Origin" ≠ some "*" := by
  refine ⟨by decide, by decide, by decide, by decide, by decide, by decide, by decide⟩

/-- Concrete instantiation of the amended C8 at the wildcard
configuration and the preflight request headers. -/
theorem claim_C8_witness :
    preflightCheck "OPTIONS" hdrsPreflight (some [.Cors cfgCors]) =
      some { status := 204
             headers :=
               [("Access-Control-Allow-Methods", joinSep ", " cfgCors.allowed_methods),
                ("Access-Control-Allow-Headers", joinSep ", " cfgCors.allowed_headers.toList),
                ("Access-Control-Allow-Origin", ""),
                ("Vary", "Origin")] ++
               (match cfgCors.allow_credentials with
                | some true => [("Access-Control-Allow-Credentials", "true")]
                | _ => []) ++
               (match cfgCors.max_age with
                | some s => [("Access-Control-Max-Age", natToStr s)]
                | none => [])
             body := "" } :=
  claim_C8_preflight cfgCors hdrsPreflight [.Cors cfgCors] rfl rfl
    (by decide) (by decide)
